/-
  Verification of the Vidly backend sentiment-analysis pipeline.

  Shallow embedding of the TypeScript sources:
  - src/services/sentiment.service.ts (batching, worker pool, analysis nodes)
  - src/workers/video.worker.ts (job handler)
  - the multi-agent graph file (barrier node)

  JavaScript numbers appearing here are small non-negative integers, modelled
  as Nat; `Math.ceil(a/b)` is `ceilDiv a b`, `Math.floor(a/b)` is Nat division,
  and `Math.round(x)` for non-negative x is `⌊x + 1/2⌋`.
-/
import Mathlib

set_option maxHeartbeats 1000000

namespace Vidly

/-! ## Basic data types (from youtube.service and sentiment.service) -/

/-- `YouTubeComment` from the YouTube service interface. -/
structure YouTubeComment where
  id : String
  text : String
  likeCount : Nat
  replyCount : Nat
  relevanceScore : Int
deriving Repr, DecidableEq

/-- The three sentiment labels of `CommentSentimentSchema`. -/
inductive Sentiment where
  | positive
  | negative
  | neutral
deriving Repr, DecidableEq

/-- `CommentSentiment` (z.infer of `CommentSentimentSchema`). -/
structure CommentSentiment where
  comment : String
  sentiment : Sentiment
deriving Repr, DecidableEq

/-! ## C1: calculateOptimalBatching -/

/-- `Math.ceil(a / b)` for natural numbers (b > 0 at every use site). -/
def ceilDiv (a b : Nat) : Nat := (a + b - 1) / b

def MIN_BATCH_SIZE : Nat := 10

def MAX_WORKERS : Nat := 8

/-- Return type of `calculateOptimalBatching`. -/
structure BatchingPlan where
  batchSize : Nat
  numWorkers : Nat
deriving Repr, DecidableEq

/-- `calculateOptimalBatching` from sentiment.service.ts. -/
def calculateOptimalBatching (totalComments : Nat) : BatchingPlan :=
  if totalComments > 4000 then
    { batchSize := 500, numWorkers := MAX_WORKERS }
  else
    let idealBatchSize := ceilDiv totalComments MAX_WORKERS
    if idealBatchSize < MIN_BATCH_SIZE then
      let optimalWorkers := max 1 (totalComments / MIN_BATCH_SIZE)
      let adjustedBatchSize := ceilDiv totalComments optimalWorkers
      { batchSize := adjustedBatchSize, numWorkers := optimalWorkers }
    else
      { batchSize := idealBatchSize, numWorkers := MAX_WORKERS }

/-- Structural helper for `makeBatches`; the fuel bounds the number of loop
iterations and `l.length` iterations always suffice for a positive step. -/
def makeBatchesFuel (batchSize : Nat) : Nat → List α → List (List α)
  | _, [] => []
  | 0, _ :: _ => []
  | fuel + 1, a :: rest =>
    if 0 < batchSize then
      (a :: rest).take batchSize ::
        makeBatchesFuel batchSize fuel ((a :: rest).drop batchSize)
    else
      []

/-- The batch-creation loop of `classifyCommentsNode`:
`for (i = 0; i < total; i += batchSize) batches.push(comments.slice(i, i + batchSize))`. -/
def makeBatches (batchSize : Nat) (l : List α) : List (List α) :=
  makeBatchesFuel batchSize l.length l

theorem makeBatchesFuel_join (batchSize : Nat) (h : 0 < batchSize) (fuel : Nat) :
    ∀ l : List α, l.length ≤ fuel →
      (makeBatchesFuel batchSize fuel l).flatten = l := by
  induction fuel with
  | zero =>
    intro l hl
    match l with
    | [] => rfl
    | a :: rest => simp at hl
  | succ fuel ih =>
    intro l hl
    match l with
    | [] => rfl
    | a :: rest =>
      rw [makeBatchesFuel, if_pos h, List.flatten_cons]
      rw [ih ((a :: rest).drop batchSize) (by
        rw [List.length_drop, List.length_cons]
        simp only [List.length_cons] at hl
        omega)]
      exact List.take_append_drop _ _

theorem makeBatches_join (batchSize : Nat) (h : 0 < batchSize) (l : List α) :
    (makeBatches batchSize l).flatten = l :=
  makeBatchesFuel_join batchSize h l.length l le_rfl

theorem makeBatches_sizes (batchSize : Nat) (h : 0 < batchSize) (l : List α) :
    ((makeBatches batchSize l).map List.length).sum = l.length := by
  rw [← List.length_flatten, makeBatches_join batchSize h]

theorem cob_large {t : Nat} (h : 4000 < t) :
    calculateOptimalBatching t = { batchSize := 500, numWorkers := 8 } := by
  unfold calculateOptimalBatching
  rw [if_pos h]
  rfl

theorem cob_mid {t : Nat} (h1 : t ≤ 4000) (h2 : 10 ≤ ceilDiv t 8) :
    calculateOptimalBatching t = { batchSize := ceilDiv t 8, numWorkers := 8 } := by
  unfold calculateOptimalBatching MIN_BATCH_SIZE MAX_WORKERS
  rw [if_neg (by omega)]
  simp only
  rw [if_neg (by omega)]

theorem cob_small {t : Nat} (h1 : t ≤ 4000) (h2 : ceilDiv t 8 < 10) :
    calculateOptimalBatching t =
      { batchSize := ceilDiv t (max 1 (t / 10)), numWorkers := max 1 (t / 10) } := by
  unfold calculateOptimalBatching MIN_BATCH_SIZE MAX_WORKERS
  rw [if_neg (by omega)]
  simp only
  rw [if_pos (by omega)]

theorem cob_workers_le (t : Nat) : (calculateOptimalBatching t).numWorkers ≤ 8 := by
  by_cases hbig : 4000 < t
  · rw [cob_large hbig]
  · by_cases hmid : 10 ≤ ceilDiv t 8
    · rw [cob_mid (by omega) hmid]
    · rw [cob_small (by omega) (by omega)]
      simp only
      unfold ceilDiv at hmid
      omega

theorem cob_batch_ge {t : Nat} (h : 10 ≤ t) :
    10 ≤ (calculateOptimalBatching t).batchSize := by
  by_cases hbig : 4000 < t
  · rw [cob_large hbig]; decide
  · by_cases hmid : 10 ≤ ceilDiv t 8
    · rw [cob_mid (by omega) hmid]; exact hmid
    · rw [cob_small (by omega) (by omega)]
      simp only
      have hw : max 1 (t / 10) = t / 10 := by omega
      rw [hw]
      have hwpos : 0 < t / 10 := by omega
      rw [ceilDiv, Nat.le_div_iff_mul_le hwpos]
      have := Nat.div_mul_le_self t 10
      omega

theorem cob_batch_pos {t : Nat} (h : 1 ≤ t) :
    1 ≤ (calculateOptimalBatching t).batchSize := by
  by_cases hbig : 4000 < t
  · rw [cob_large hbig]; decide
  · by_cases hmid : 10 ≤ ceilDiv t 8
    · rw [cob_mid (by omega) hmid]
      show 1 ≤ ceilDiv t 8
      omega
    · rw [cob_small (by omega) (by omega)]
      simp only
      have hwpos : 0 < max 1 (t / 10) := by omega
      rw [ceilDiv, Nat.le_div_iff_mul_le hwpos]
      omega

/-- C1: the batching policy returns 500/8 above 4000 comments, otherwise
ceil(total/8) with 8 workers, shrinking the worker count via
max(1, floor(total/10)) when the ideal batch would be under 10; consequently
numWorkers ≤ 8, batchSize ≥ 10 once totalComments ≥ 10, and cutting the
comment list into consecutive chunks of batchSize gives batches whose
sizes sum to totalComments. -/
theorem C1_calculateOptimalBatching_spec (totalComments : Nat)
    (h1 : 1 ≤ totalComments) :
    (4000 < totalComments →
      calculateOptimalBatching totalComments = { batchSize := 500, numWorkers := 8 }) ∧
    (totalComments ≤ 4000 → 10 ≤ ceilDiv totalComments 8 →
      calculateOptimalBatching totalComments =
        { batchSize := ceilDiv totalComments 8, numWorkers := 8 }) ∧
    (totalComments ≤ 4000 → ceilDiv totalComments 8 < 10 →
      (calculateOptimalBatching totalComments).numWorkers =
          max 1 (totalComments / 10) ∧
      (calculateOptimalBatching totalComments).batchSize =
          ceilDiv totalComments (calculateOptimalBatching totalComments).numWorkers) ∧
    (calculateOptimalBatching totalComments).numWorkers ≤ 8 ∧
    (10 ≤ totalComments → 10 ≤ (calculateOptimalBatching totalComments).batchSize) ∧
    (∀ comments : List YouTubeComment, comments.length = totalComments →
      ((makeBatches (calculateOptimalBatching totalComments).batchSize comments).map
          List.length).sum = totalComments) := by
  refine ⟨fun hbig => cob_large hbig,
          fun hle hmid => cob_mid hle hmid,
          fun hle hsm => ?_,
          cob_workers_le totalComments,
          fun h10 => cob_batch_ge h10,
          fun comments hlen => ?_⟩
  · rw [cob_small hle hsm]
    exact ⟨rfl, rfl⟩
  · subst hlen
    exact makeBatches_sizes _ (cob_batch_pos h1) comments

/-- Witness for C1 at totalComments = 20. -/
theorem C1_calculateOptimalBatching_spec_witness :
    (calculateOptimalBatching 20).numWorkers ≤ 8 :=
  (C1_calculateOptimalBatching_spec 20 (by decide)).2.2.2.1

/-! ## Worker pool (processWithWorkerPool) -/

/-- `BatchJob` from sentiment.service.ts. -/
structure BatchJob where
  batch : List YouTubeComment
  batchNumber : Nat
  totalBatches : Nat
  transcript : String
  hasTranscript : Bool
  retryCount : Nat
deriving Repr, DecidableEq

/-- The fields of a socket progress event relevant to the worker pool. -/
structure ProgressEvent where
  jobId : String
  videoId : String
  stage : String
  percentage : Nat
deriving Repr, DecidableEq

/-- The per-batch progress percentage of the worker body:
`baseProgress + Math.floor((completedBatches / totalBatches) * progressRange)`
with base 40 and range 20. -/
def batchProgressPercentage (completedBatches totalBatches : Nat) : Nat :=
  40 + completedBatches * 20 / totalBatches

/-- The events emitted after one successful batch: one `classifying_comments`
progress event when both `jobId` and `videoId` are present, none otherwise
(the `if (jobId && videoId)` guard in the worker body). -/
def batchProgressEvents (jobId videoId : Option String)
    (completedBatches totalBatches : Nat) : List ProgressEvent :=
  match jobId, videoId with
  | some j, some v =>
      [{ jobId := j, videoId := v, stage := "classifying_comments",
         percentage := batchProgressPercentage completedBatches totalBatches }]
  | _, _ => []

/-- Splitting of a failed batch: `slice(0, ceil(n/2))` and `slice(ceil(n/2))`,
both carrying `retryCount + 1`. -/
def splitJob (job : BatchJob) : BatchJob × BatchJob :=
  let halfSize := ceilDiv job.batch.length 2
  ({ job with batch := job.batch.take halfSize, retryCount := job.retryCount + 1 },
   { job with batch := job.batch.drop halfSize, retryCount := job.retryCount + 1 })

/-- State of the worker-pool drain loop: the shared `jobQueue`, the
successfully processed jobs, the permanently failed jobs, and the progress
events emitted so far. -/
structure PoolState where
  queue : List BatchJob
  completedJobs : List BatchJob
  failedJobs : List BatchJob
  events : List ProgressEvent
deriving Repr, DecidableEq

/-- One iteration of the worker loop body: `jobQueue.shift()`, then either
success, split-and-requeue (batch above 10 comments and fewer than 2
retries), or permanent failure. `oracle` decides whether
`processSingleBatch` resolves on a given job; `totalBatches` is the closure
constant used for progress emission. -/
def poolStep (oracle : BatchJob → Bool) (jobId videoId : Option String)
    (totalBatches : Nat) (s : PoolState) : PoolState :=
  match s.queue with
  | [] => s
  | job :: rest =>
    if oracle job then
      { s with queue := rest,
               completedJobs := job :: s.completedJobs,
               events := s.events ++
                 batchProgressEvents jobId videoId
                   (s.completedJobs.length + 1) totalBatches }
    else if 10 < job.batch.length ∧ job.retryCount < 2 then
      { s with queue := rest ++ [(splitJob job).1, (splitJob job).2] }
    else
      { s with queue := rest, failedJobs := job :: s.failedJobs }

/-- Termination measure of one job: at most two further split generations. -/
def jobMeasure (j : BatchJob) : Nat := 4 ^ (2 - min j.retryCount 2)

/-- Termination measure of the queue. -/
def queueMeasure (q : List BatchJob) : Nat := (q.map jobMeasure).sum

/-- The drain loop with explicit fuel; `none` means the fuel ran out before
the queue drained. -/
def runPoolFuel (oracle : BatchJob → Bool) (jobId videoId : Option String)
    (totalBatches : Nat) : Nat → PoolState → Option PoolState
  | 0, s => if s.queue = [] then some s else none
  | fuel + 1, s =>
    if s.queue = [] then some s
    else runPoolFuel oracle jobId videoId totalBatches fuel
           (poolStep oracle jobId videoId totalBatches s)

theorem jobMeasure_pos (j : BatchJob) : 1 ≤ jobMeasure j :=
  Nat.one_le_two_pow.trans (Nat.pow_le_pow_left (by omega) _)

theorem queueMeasure_pos {q : List BatchJob} (h : q ≠ []) : 1 ≤ queueMeasure q := by
  match q with
  | [] => exact absurd rfl h
  | j :: rest =>
    have := jobMeasure_pos j
    simp only [queueMeasure, List.map_cons, List.sum_cons]
    omega

theorem splitJob_measure {job : BatchJob} (h : job.retryCount < 2) :
    jobMeasure (splitJob job).1 + jobMeasure (splitJob job).2 < jobMeasure job := by
  have h1 : (splitJob job).1.retryCount = job.retryCount + 1 := rfl
  have h2 : (splitJob job).2.retryCount = job.retryCount + 1 := rfl
  simp only [jobMeasure, h1, h2]
  have hr : min (job.retryCount + 1) 2 = job.retryCount + 1 := by omega
  have hr0 : min job.retryCount 2 = job.retryCount := by omega
  rw [hr, hr0]
  have hk : 2 - job.retryCount = (1 - job.retryCount) + 1 := by omega
  have hk2 : 2 - (job.retryCount + 1) = 1 - job.retryCount := by omega
  rw [hk, hk2, pow_succ]
  have : 1 ≤ 4 ^ (1 - job.retryCount) := Nat.one_le_two_pow.trans
    (Nat.pow_le_pow_left (by omega) _)
  omega

theorem poolStep_measure_lt (oracle : BatchJob → Bool) (jobId videoId : Option String)
    (totalBatches : Nat) (s : PoolState) (h : s.queue ≠ []) :
    queueMeasure (poolStep oracle jobId videoId totalBatches s).queue <
      queueMeasure s.queue := by
  match hq : s.queue with
  | [] => exact absurd hq h
  | job :: rest =>
    simp only [poolStep, hq]
    by_cases hor : oracle job
    · rw [if_pos hor]
      simp only [queueMeasure, List.map_cons, List.sum_cons]
      have := jobMeasure_pos job
      omega
    · rw [if_neg hor]
      by_cases hsplit : 10 < job.batch.length ∧ job.retryCount < 2
      · rw [if_pos hsplit]
        simp only [queueMeasure, List.map_cons, List.sum_cons, List.map_append,
          List.sum_append, List.map_nil, List.sum_nil]
        have := splitJob_measure hsplit.2
        omega
      · rw [if_neg hsplit]
        simp only [queueMeasure, List.map_cons, List.sum_cons]
        have := jobMeasure_pos job
        omega

theorem runPoolFuel_isSome (oracle : BatchJob → Bool) (jobId videoId : Option String)
    (totalBatches : Nat) (fuel : Nat) :
    ∀ s : PoolState, queueMeasure s.queue ≤ fuel →
      (runPoolFuel oracle jobId videoId totalBatches fuel s).isSome := by
  induction fuel with
  | zero =>
    intro s hs
    by_cases h : s.queue = []
    · simp [runPoolFuel, h]
    · exact absurd hs (by have := queueMeasure_pos h; omega)
  | succ fuel ih =>
    intro s hs
    by_cases h : s.queue = []
    · simp [runPoolFuel, h]
    · rw [runPoolFuel, if_neg h]
      exact ih _ (by have := poolStep_measure_lt oracle jobId videoId totalBatches s h; omega)

/-- The queue built at the top of `processWithWorkerPool`:
`allBatches.map((batch, idx) => ({batch, batchNumber: idx + 1, ..., retryCount: 0}))`. -/
def mkJobQueue (totalBatches : Nat) (transcript : String) (hasTranscript : Bool) :
    Nat → List (List YouTubeComment) → List BatchJob
  | _, [] => []
  | idx, b :: bs =>
    { batch := b, batchNumber := idx + 1, totalBatches := totalBatches,
      transcript := transcript, hasTranscript := hasTranscript, retryCount := 0 } ::
      mkJobQueue totalBatches transcript hasTranscript (idx + 1) bs

/-- Initial pool state of `processWithWorkerPool`. -/
def initialPool (allBatches : List (List YouTubeComment)) (transcript : String)
    (hasTranscript : Bool) : PoolState :=
  { queue := mkJobQueue allBatches.length transcript hasTranscript 0 allBatches,
    completedJobs := [], failedJobs := [], events := [] }

/-- Iterating the worker loop body `n` times. -/
def poolIter (oracle : BatchJob → Bool) (jobId videoId : Option String)
    (totalBatches : Nat) (n : Nat) (s : PoolState) : PoolState :=
  (poolStep oracle jobId videoId totalBatches)^[n] s

theorem mkJobQueue_retry (tb : Nat) (tr : String) (ht : Bool) :
    ∀ (idx : Nat) (bs : List (List YouTubeComment)) (j : BatchJob),
      j ∈ mkJobQueue tb tr ht idx bs → j.retryCount = 0 := by
  intro idx bs
  induction bs generalizing idx with
  | nil => intro j hj; simp [mkJobQueue] at hj
  | cons b bs ih =>
    intro j hj
    rw [mkJobQueue, List.mem_cons] at hj
    rcases hj with h | h
    · rw [h]
    · exact ih _ j h

theorem mkJobQueue_bn_gt (tb : Nat) (tr : String) (ht : Bool) :
    ∀ (idx : Nat) (bs : List (List YouTubeComment)) (j : BatchJob),
      j ∈ mkJobQueue tb tr ht idx bs → idx < j.batchNumber := by
  intro idx bs
  induction bs generalizing idx with
  | nil => intro j hj; simp [mkJobQueue] at hj
  | cons b bs ih =>
    intro j hj
    rw [mkJobQueue, List.mem_cons] at hj
    rcases hj with h | h
    · rw [h]; exact Nat.lt_succ_self idx
    · have := ih (idx + 1) j h
      omega

theorem list_filter_eq_nil_of_forall {α : Type} (p : α → Bool) (l : List α)
    (h : ∀ x ∈ l, p x = false) : l.filter p = [] := by
  induction l with
  | nil => rfl
  | cons a l ih =>
    rw [List.filter_cons, h a (List.mem_cons_self a l)]
    exact ih (fun x hx => h x (List.mem_cons_of_mem a hx))

theorem mkJobQueue_filter_le_one (tb : Nat) (tr : String) (ht : Bool) (k : Nat) :
    ∀ (idx : Nat) (bs : List (List YouTubeComment)),
      ((mkJobQueue tb tr ht idx bs).filter (fun j => j.batchNumber == k)).length ≤ 1 := by
  intro idx bs
  induction bs generalizing idx with
  | nil => simp [mkJobQueue]
  | cons b bs ih =>
    rw [mkJobQueue, List.filter_cons]
    by_cases hk :
        ({ batch := b, batchNumber := idx + 1, totalBatches := tb, transcript := tr,
           hasTranscript := ht, retryCount := 0 } : BatchJob).batchNumber == k
    · rw [if_pos hk]
      have hkval : k = idx + 1 := (beq_iff_eq.mp hk).symm
      have hnil : (mkJobQueue tb tr ht (idx + 1) bs).filter
          (fun j => j.batchNumber == k) = [] := by
        refine list_filter_eq_nil_of_forall _ _ (fun j hj => ?_)
        have := mkJobQueue_bn_gt tb tr ht (idx + 1) bs j hj
        simp only [beq_eq_false_iff_ne, ne_eq]
        omega
      rw [hnil]
      simp
    · rw [if_neg hk]
      exact ih (idx + 1)

/-! ### Invariant: retryCount never exceeds 2 -/

theorem poolStep_retry_invariant (oracle : BatchJob → Bool)
    (jobId videoId : Option String) (totalBatches : Nat) (s : PoolState)
    (h : ∀ j ∈ s.queue, j.retryCount ≤ 2) :
    ∀ j ∈ (poolStep oracle jobId videoId totalBatches s).queue, j.retryCount ≤ 2 := by
  match hq : s.queue with
  | [] => simpa [poolStep, hq] using h
  | job :: rest =>
    have hrest : ∀ j ∈ rest, j.retryCount ≤ 2 := by
      intro j hj; exact h j (by rw [hq]; exact List.mem_cons_of_mem _ hj)
    simp only [poolStep, hq]
    by_cases hor : oracle job
    · rw [if_pos hor]; exact hrest
    · rw [if_neg hor]
      by_cases hsplit : 10 < job.batch.length ∧ job.retryCount < 2
      · rw [if_pos hsplit]
        intro j hj
        rw [List.mem_append] at hj
        rcases hj with hj | hj
        · exact hrest j hj
        · have h1 : (splitJob job).1.retryCount = job.retryCount + 1 := rfl
          have h2 : (splitJob job).2.retryCount = job.retryCount + 1 := rfl
          simp only [List.mem_cons, List.not_mem_nil, or_false] at hj
          rcases hj with hj | hj
          · rw [hj, h1]; omega
          · rw [hj, h2]; omega
      · rw [if_neg hsplit]; exact hrest

theorem poolIter_retry_invariant (oracle : BatchJob → Bool)
    (jobId videoId : Option String) (totalBatches : Nat) (s : PoolState)
    (h : ∀ j ∈ s.queue, j.retryCount ≤ 2) (n : Nat) :
    ∀ j ∈ (poolIter oracle jobId videoId totalBatches n s).queue, j.retryCount ≤ 2 := by
  induction n generalizing s with
  | zero => simpa [poolIter] using h
  | succ n ih =>
    rw [poolIter, Function.iterate_succ_apply]
    exact ih _ (poolStep_retry_invariant oracle jobId videoId totalBatches s h)

/-! ### Invariant: at most 4 pending descendants of one original batch -/

/-- Weight of one job in the descendant bound: halves at each split
generation, floor 1. -/
def descJobWeight (j : BatchJob) : Nat := 2 ^ (2 - min j.retryCount 2)

/-- Total weight of the pending descendants of original batch `k`
(splits preserve `batchNumber`). -/
def descWeight (k : Nat) (q : List BatchJob) : Nat :=
  ((q.filter (fun j => j.batchNumber == k)).map descJobWeight).sum

theorem descJobWeight_pos (j : BatchJob) : 1 ≤ descJobWeight j :=
  Nat.one_le_two_pow

theorem splitJob_descWeight {job : BatchJob} (h : job.retryCount < 2) :
    descJobWeight (splitJob job).1 + descJobWeight (splitJob job).2 =
      descJobWeight job := by
  have h1 : (splitJob job).1.retryCount = job.retryCount + 1 := rfl
  have h2 : (splitJob job).2.retryCount = job.retryCount + 1 := rfl
  simp only [descJobWeight, h1, h2]
  have hr : min (job.retryCount + 1) 2 = job.retryCount + 1 := by omega
  have hr0 : min job.retryCount 2 = job.retryCount := by omega
  rw [hr, hr0]
  have hk : 2 - job.retryCount = (1 - job.retryCount) + 1 := by omega
  have hk2 : 2 - (job.retryCount + 1) = 1 - job.retryCount := by omega
  rw [hk, hk2, pow_succ]
  omega

theorem splitJob_batchNumber (job : BatchJob) :
    (splitJob job).1.batchNumber = job.batchNumber ∧
      (splitJob job).2.batchNumber = job.batchNumber :=
  ⟨rfl, rfl⟩

theorem poolStep_descWeight_le (oracle : BatchJob → Bool)
    (jobId videoId : Option String) (totalBatches : Nat) (k : Nat) (s : PoolState) :
    descWeight k (poolStep oracle jobId videoId totalBatches s).queue ≤
      descWeight k s.queue := by
  match hq : s.queue with
  | [] => simp [poolStep, hq]
  | job :: rest =>
    simp only [poolStep, hq]
    by_cases hor : oracle job
    · rw [if_pos hor]
      simp only [descWeight, List.filter_cons]
      by_cases hk : job.batchNumber == k
      · rw [if_pos hk]; simp only [List.map_cons, List.sum_cons]; omega
      · rw [if_neg hk]
    · rw [if_neg hor]
      by_cases hsplit : 10 < job.batch.length ∧ job.retryCount < 2
      · rw [if_pos hsplit]
        have hbn1 := (splitJob_batchNumber job).1
        have hbn2 := (splitJob_batchNumber job).2
        by_cases hk : (job.batchNumber == k) = true
        · have hk1 : ((splitJob job).1.batchNumber == k) = true := by
            rw [hbn1]; exact hk
          have hk2 : ((splitJob job).2.batchNumber == k) = true := by
            rw [hbn2]; exact hk
          have hqf : (job :: rest).filter (fun j => j.batchNumber == k) =
              job :: rest.filter (fun j => j.batchNumber == k) := by
            rw [List.filter_cons, if_pos hk]
          have hsf : (rest ++ [(splitJob job).1, (splitJob job).2]).filter
              (fun j => j.batchNumber == k) =
              rest.filter (fun j => j.batchNumber == k) ++
                [(splitJob job).1, (splitJob job).2] := by
            rw [List.filter_append, List.filter_cons, if_pos hk1,
              List.filter_cons, if_pos hk2, List.filter_nil]
          rw [descWeight, descWeight, hqf, hsf]
          simp only [List.map_cons, List.map_append, List.sum_cons,
            List.sum_append, List.map_nil, List.sum_nil]
          have := splitJob_descWeight hsplit.2
          omega
        · have hk1 : ¬(((splitJob job).1.batchNumber == k) = true) := by
            rw [hbn1]; exact hk
          have hk2 : ¬(((splitJob job).2.batchNumber == k) = true) := by
            rw [hbn2]; exact hk
          have hqf : (job :: rest).filter (fun j => j.batchNumber == k) =
              rest.filter (fun j => j.batchNumber == k) := by
            rw [List.filter_cons, if_neg hk]
          have hsf : (rest ++ [(splitJob job).1, (splitJob job).2]).filter
              (fun j => j.batchNumber == k) =
              rest.filter (fun j => j.batchNumber == k) := by
            rw [List.filter_append, List.filter_cons, if_neg hk1,
              List.filter_cons, if_neg hk2, List.filter_nil, List.append_nil]
          rw [descWeight, descWeight, hqf, hsf]
      · rw [if_neg hsplit]
        simp only [descWeight, List.filter_cons]
        by_cases hk : job.batchNumber == k
        · rw [if_pos hk]; simp only [List.map_cons, List.sum_cons]; omega
        · rw [if_neg hk]

theorem poolIter_descWeight_le (oracle : BatchJob → Bool)
    (jobId videoId : Option String) (totalBatches : Nat) (k : Nat) (n : Nat)
    (s : PoolState) :
    descWeight k (poolIter oracle jobId videoId totalBatches n s).queue ≤
      descWeight k s.queue := by
  induction n generalizing s with
  | zero => simp [poolIter]
  | succ n ih =>
    rw [poolIter, Function.iterate_succ_apply]
    exact le_trans (ih _) (poolStep_descWeight_le oracle jobId videoId totalBatches k s)

theorem length_le_sum_of_one_le {α : Type} (f : α → Nat) (l : List α)
    (h : ∀ x ∈ l, 1 ≤ f x) : l.length ≤ (l.map f).sum := by
  induction l with
  | nil => simp
  | cons a l ih =>
    simp only [List.length_cons, List.map_cons, List.sum_cons]
    have := h a (List.mem_cons_self a l)
    have := ih (fun x hx => h x (List.mem_cons_of_mem a hx))
    omega

theorem descCount_le_descWeight (k : Nat) (q : List BatchJob) :
    (q.filter (fun j => j.batchNumber == k)).length ≤ descWeight k q :=
  length_le_sum_of_one_le descJobWeight _ (fun j _ => descJobWeight_pos j)

theorem initialPool_descWeight_le (allBatches : List (List YouTubeComment))
    (transcript : String) (hasTranscript : Bool) (k : Nat) :
    descWeight k (initialPool allBatches transcript hasTranscript).queue ≤ 4 := by
  unfold initialPool descWeight
  have hlen := mkJobQueue_filter_le_one allBatches.length transcript hasTranscript k 0
    allBatches
  have hterm : ∀ w ∈ ((mkJobQueue allBatches.length transcript hasTranscript 0
      allBatches).filter (fun j => j.batchNumber == k)).map descJobWeight, w ≤ 4 := by
    intro w hw
    rw [List.mem_map] at hw
    obtain ⟨j, hj, hwj⟩ := hw
    have : j.retryCount = 0 :=
      mkJobQueue_retry allBatches.length transcript hasTranscript 0 allBatches j
        (List.mem_of_mem_filter hj)
    rw [← hwj]
    simp [descJobWeight, this]
  match hfl : (mkJobQueue allBatches.length transcript hasTranscript 0
      allBatches).filter (fun j => j.batchNumber == k) with
  | [] => rw [hfl]; simp
  | [j] =>
    have := hterm (descJobWeight j) (by rw [hfl]; simp)
    rw [hfl]
    simp only [List.map_cons, List.map_nil, List.sum_cons, List.sum_nil]
    omega
  | j1 :: j2 :: rest =>
    rw [hfl] at hlen
    simp at hlen

/-! ### Conservation of comments (C10) -/

/-- The multiset of all comments held by a list of jobs. -/
def jobsComments (l : List BatchJob) : Multiset YouTubeComment :=
  (l.map (fun j => (j.batch : Multiset YouTubeComment))).sum

/-- The multiset of all comments in a pool state: pending, successfully
completed, or permanently failed. -/
def stateComments (s : PoolState) : Multiset YouTubeComment :=
  jobsComments s.queue + jobsComments s.completedJobs + jobsComments s.failedJobs

theorem splitJob_batches (job : BatchJob) :
    (splitJob job).1.batch = job.batch.take (ceilDiv job.batch.length 2) ∧
      (splitJob job).2.batch = job.batch.drop (ceilDiv job.batch.length 2) ∧
      (splitJob job).1.batch ++ (splitJob job).2.batch = job.batch := by
  refine ⟨rfl, rfl, ?_⟩
  exact List.take_append_drop _ _

theorem poolStep_comments_conserved (oracle : BatchJob → Bool)
    (jobId videoId : Option String) (totalBatches : Nat) (s : PoolState) :
    stateComments (poolStep oracle jobId videoId totalBatches s) = stateComments s := by
  match hq : s.queue with
  | [] => simp [poolStep, hq]
  | job :: rest =>
    simp only [poolStep, hq]
    by_cases hor : oracle job
    · rw [if_pos hor]
      simp only [stateComments, jobsComments, hq, List.map_cons, List.sum_cons]
      abel
    · rw [if_neg hor]
      by_cases hsplit : 10 < job.batch.length ∧ job.retryCount < 2
      · rw [if_pos hsplit]
        simp only [stateComments, jobsComments, hq, List.map_cons, List.sum_cons,
          List.map_append, List.sum_append, List.map_nil, List.sum_nil]
        have hb : ((splitJob job).1.batch : Multiset YouTubeComment) +
            ((splitJob job).2.batch : Multiset YouTubeComment) =
            (job.batch : Multiset YouTubeComment) := by
          simp [← (splitJob_batches job).2.2]
        rw [← hb]
        abel
      · rw [if_neg hsplit]
        simp only [stateComments, jobsComments, hq, List.map_cons, List.sum_cons]
        abel

theorem poolIter_comments_conserved (oracle : BatchJob → Bool)
    (jobId videoId : Option String) (totalBatches : Nat) (n : Nat) (s : PoolState) :
    stateComments (poolIter oracle jobId videoId totalBatches n s) = stateComments s := by
  induction n generalizing s with
  | zero => simp [poolIter]
  | succ n ih =>
    rw [poolIter, Function.iterate_succ_apply]
    exact (ih _).trans (poolStep_comments_conserved oracle jobId videoId totalBatches s)

/-- C2: the drain loop terminates for every initial queue and failure
pattern (fuel equal to the queue measure always suffices, even when the
oracle fails every batch); a failed job is split and requeued exactly when
its batch exceeds 10 comments and retryCount < 2, both halves carrying
retryCount + 1; starting from the queue built by processWithWorkerPool,
retryCount never exceeds 2 on any queued job, and at most 4 pending jobs
ever descend from one original batch. -/
theorem C2_worker_pool_terminates (oracle : BatchJob → Bool)
    (jobId videoId : Option String) (totalBatches : Nat)
    (allBatches : List (List YouTubeComment)) (transcript : String)
    (hasTranscript : Bool) :
    (∀ s : PoolState,
      (runPoolFuel oracle jobId videoId totalBatches (queueMeasure s.queue) s).isSome) ∧
    (∀ (s : PoolState) (job : BatchJob) (rest : List BatchJob),
      s.queue = job :: rest → oracle job = false → 10 < job.batch.length →
      job.retryCount < 2 →
      (poolStep oracle jobId videoId totalBatches s).queue =
          rest ++ [(splitJob job).1, (splitJob job).2] ∧
        (splitJob job).1.retryCount = job.retryCount + 1 ∧
        (splitJob job).2.retryCount = job.retryCount + 1) ∧
    (∀ (s : PoolState) (job : BatchJob) (rest : List BatchJob),
      s.queue = job :: rest → oracle job = false →
      ¬(10 < job.batch.length ∧ job.retryCount < 2) →
      (poolStep oracle jobId videoId totalBatches s).queue = rest ∧
        (poolStep oracle jobId videoId totalBatches s).failedJobs =
          job :: s.failedJobs) ∧
    (∀ (n : Nat), ∀ j ∈ (poolIter oracle jobId videoId totalBatches n
        (initialPool allBatches transcript hasTranscript)).queue,
      j.retryCount ≤ 2) ∧
    (∀ (n k : Nat),
      ((poolIter oracle jobId videoId totalBatches n
          (initialPool allBatches transcript hasTranscript)).queue.filter
        (fun j => j.batchNumber == k)).length ≤ 4) := by
  refine ⟨fun s => runPoolFuel_isSome oracle jobId videoId totalBatches _ s le_rfl,
          fun s job rest hq hfail hlen hretry => ?_,
          fun s job rest hq hfail hcond => ?_,
          fun n => poolIter_retry_invariant oracle jobId videoId totalBatches _
            (fun j hj => by
              rw [mkJobQueue_retry allBatches.length transcript hasTranscript 0
                allBatches j hj]
              omega) n,
          fun n k => ?_⟩
  · refine ⟨?_, rfl, rfl⟩
    simp only [poolStep, hq]
    rw [if_neg (by simp [hfail]), if_pos ⟨hlen, hretry⟩]
  · constructor
    · simp only [poolStep, hq]
      rw [if_neg (by simp [hfail]), if_neg hcond]
    · simp only [poolStep, hq]
      rw [if_neg (by simp [hfail]), if_neg hcond]
  · calc ((poolIter oracle jobId videoId totalBatches n
          (initialPool allBatches transcript hasTranscript)).queue.filter
            (fun j => j.batchNumber == k)).length ≤
        descWeight k (poolIter oracle jobId videoId totalBatches n
          (initialPool allBatches transcript hasTranscript)).queue :=
      descCount_le_descWeight k _
    _ ≤ descWeight k (initialPool allBatches transcript hasTranscript).queue :=
      poolIter_descWeight_le oracle jobId videoId totalBatches k n _
    _ ≤ 4 := initialPool_descWeight_le allBatches transcript hasTranscript k

/-- A concrete comment for witnesses. -/
def sampleComment (n : Nat) : YouTubeComment :=
  { id := toString n, text := "c", likeCount := 0, replyCount := 0,
    relevanceScore := 0 }

/-- A concrete comment list for witnesses. -/
def sampleComments (n : Nat) : List YouTubeComment :=
  (List.range n).map sampleComment

/-- A concrete 12-comment job for witnesses. -/
def sampleJob : BatchJob :=
  { batch := sampleComments 12, batchNumber := 1, totalBatches := 1,
    transcript := "", hasTranscript := false, retryCount := 0 }

/-- Witness for C2: one 12-comment batch under an always-failing oracle. -/
theorem C2_worker_pool_terminates_witness :
    (runPoolFuel (fun _ => false) none none 1
      (queueMeasure (initialPool [sampleComments 12] "" false).queue)
      (initialPool [sampleComments 12] "" false)).isSome ∧
    (poolStep (fun _ => false) none none 1
        (initialPool [sampleComments 12] "" false)).queue =
      [] ++ [(splitJob sampleJob).1, (splitJob sampleJob).2] := by
  refine ⟨(C2_worker_pool_terminates (fun _ => false) none none 1
    [sampleComments 12] "" false).1 _, ?_⟩
  exact ((C2_worker_pool_terminates (fun _ => false) none none 1
    [sampleComments 12] "" false).2.1
    (initialPool [sampleComments 12] "" false) sampleJob []
    rfl rfl (by decide) (by decide)).1

/-- Comments of all jobs in `initialPool` are exactly the input batches. -/
theorem jobsComments_mkJobQueue (tb : Nat) (tr : String) (ht : Bool) :
    ∀ (idx : Nat) (bs : List (List YouTubeComment)),
      jobsComments (mkJobQueue tb tr ht idx bs) =
        (bs.flatten : Multiset YouTubeComment) := by
  intro idx bs
  induction bs generalizing idx with
  | nil => simp [mkJobQueue, jobsComments]
  | cons b bs ih =>
    rw [mkJobQueue]
    simp only [jobsComments, List.map_cons, List.sum_cons, List.flatten_cons] at ih ⊢
    rw [ih (idx + 1)]
    simp

theorem stateComments_initialPool (allBatches : List (List YouTubeComment))
    (tr : String) (ht : Bool) :
    stateComments (initialPool allBatches tr ht) =
      (allBatches.flatten : Multiset YouTubeComment) := by
  simp only [stateComments, initialPool, jobsComments, List.map_nil,
    List.sum_nil, add_zero]
  exact jobsComments_mkJobQueue allBatches.length tr ht 0 allBatches

/-- C10: splitting a failed batch loses and duplicates nothing: the first
half is exactly the first ceil(n/2) comments, the second the remaining
n - ceil(n/2), concatenating them reproduces the batch; and throughout any
pool run the multiset of comments across pending, completed and failed
batches equals the input comments. -/
theorem C10_split_preserves_comments (oracle : BatchJob → Bool)
    (jobId videoId : Option String) (totalBatches : Nat)
    (allBatches : List (List YouTubeComment)) (transcript : String)
    (hasTranscript : Bool) :
    (∀ job : BatchJob,
      (splitJob job).1.batch = job.batch.take (ceilDiv job.batch.length 2) ∧
      (splitJob job).2.batch = job.batch.drop (ceilDiv job.batch.length 2) ∧
      (splitJob job).1.batch.length = ceilDiv job.batch.length 2 ∧
      (splitJob job).2.batch.length = job.batch.length - ceilDiv job.batch.length 2 ∧
      (splitJob job).1.batch ++ (splitJob job).2.batch = job.batch) ∧
    (∀ n : Nat,
      stateComments (poolIter oracle jobId videoId totalBatches n
        (initialPool allBatches transcript hasTranscript)) =
      (allBatches.flatten : Multiset YouTubeComment)) := by
  constructor
  · intro job
    obtain ⟨h1, h2, h3⟩ := splitJob_batches job
    refine ⟨h1, h2, ?_, ?_, h3⟩
    · rw [h1, List.length_take]
      have : ceilDiv job.batch.length 2 ≤ job.batch.length := by
        unfold ceilDiv; omega
      omega
    · rw [h2, List.length_drop]
  · intro n
    rw [poolIter_comments_conserved, stateComments_initialPool]

/-! ## C3: per-batch progress events during classification -/

/-- Complete drain of the worker pool: iterating the loop body
`queueMeasure` many times, which `runPoolFuel_isSome` shows is enough. -/
def runPool (oracle : BatchJob → Bool) (jobId videoId : Option String)
    (totalBatches : Nat) (s : PoolState) : PoolState :=
  poolIter oracle jobId videoId totalBatches (queueMeasure s.queue) s

/-- The worker-pool run performed by `classifyCommentsNode`: it computes the
batching plan, builds the batches, and calls `processWithWorkerPool` with
`undefined` as the jobId argument and `state.videoId` as videoId — the
literal arguments at the call site (`undefined, // jobId will be in closure
from buildAnalysisGraph`). -/
def classifyCommentsPoolRun (oracle : BatchJob → Bool) (videoId : String)
    (comments : List YouTubeComment) (transcript : String)
    (hasTranscript : Bool) : PoolState :=
  let plan := calculateOptimalBatching comments.length
  let batches := makeBatches plan.batchSize comments
  runPool oracle none (some videoId) batches.length
    (initialPool batches transcript hasTranscript)

/-- All `classifying_comments`-stage events emitted while the classify node
of a pipeline run executes: `wrapNodeWithProgress` emits one node-start
event at percentage 40 when a jobId was supplied to `buildAnalysisGraph`,
then the node body runs the worker pool. -/
def classifyStageEvents (jobId : Option String) (videoId : String)
    (oracle : BatchJob → Bool) (comments : List YouTubeComment)
    (transcript : String) (hasTranscript : Bool) : List ProgressEvent :=
  (match jobId with
   | some j => [{ jobId := j, videoId := videoId,
                  stage := "classifying_comments", percentage := 40 }]
   | none => []) ++
    (classifyCommentsPoolRun oracle videoId comments transcript hasTranscript).events

theorem poolStep_events_no_jobId (oracle : BatchJob → Bool)
    (videoId : Option String) (totalBatches : Nat) (s : PoolState) :
    (poolStep oracle none videoId totalBatches s).events = s.events := by
  match hq : s.queue with
  | [] => simp [poolStep, hq]
  | job :: rest =>
    simp only [poolStep, hq]
    by_cases hor : oracle job
    · rw [if_pos hor]
      show s.events ++ batchProgressEvents none videoId _ _ = s.events
      match videoId with
      | none => simp [batchProgressEvents]
      | some v => simp [batchProgressEvents]
    · rw [if_neg hor]
      by_cases hsplit : 10 < job.batch.length ∧ job.retryCount < 2
      · rw [if_pos hsplit]
      · rw [if_neg hsplit]

theorem poolIter_events_no_jobId (oracle : BatchJob → Bool)
    (videoId : Option String) (totalBatches : Nat) (n : Nat) (s : PoolState) :
    (poolIter oracle none videoId totalBatches n s).events = s.events := by
  induction n generalizing s with
  | zero => simp [poolIter]
  | succ n ih =>
    rw [poolIter, Function.iterate_succ_apply]
    exact (ih _).trans (poolStep_events_no_jobId oracle videoId totalBatches s)

/-- C3 (code bug): on a job-bound pipeline run with 20 comments where every
batch succeeds, both batches complete yet the run emits only the single
node-start event at 40 and no per-batch progress event at all — because
`classifyCommentsNode` passes `undefined` as jobId to
`processWithWorkerPool`; the per-batch emission branch (shown in the last
conjunct) fires only when both ids are handed to the pool directly, and
there yields percentage 40 + floor(completed/total·20) as claimed. -/
theorem C3_per_batch_progress_never_emitted :
    (classifyCommentsPoolRun (fun _ => true) "v" (sampleComments 20) ""
        false).completedJobs.length = 2 ∧
    classifyStageEvents (some "job-1") "v" (fun _ => true) (sampleComments 20)
        "" false =
      [{ jobId := "job-1", videoId := "v", stage := "classifying_comments",
         percentage := 40 }] ∧
    (poolStep (fun _ => true) (some "job-1") (some "v") 2
        (initialPool (makeBatches 10 (sampleComments 20)) "" false)).events =
      [{ jobId := "job-1", videoId := "v", stage := "classifying_comments",
         percentage := 40 + 1 * 20 / 2 }] := by
  refine ⟨by decide, ?_, by decide⟩
  rw [classifyStageEvents, classifyCommentsPoolRun, runPool,
    poolIter_events_no_jobId]
  rfl

/-! ## Analysis state and the separate / summary nodes (C7, C8) -/

/-- The mutable fields of `AnalysisState` read by the nodes under study. -/
structure AnalysisState where
  videoId : String
  comments : List YouTubeComment
  transcript : String
  hasTranscript : Bool
  classifiedComments : List CommentSentiment
  positiveComments : List CommentSentiment
  negativeComments : List CommentSentiment
  neutralComments : List CommentSentiment
deriving Repr, DecidableEq

/-- Result fragment of `separateCommentsNode`. -/
structure SeparatedComments where
  positiveComments : List CommentSentiment
  negativeComments : List CommentSentiment
  neutralComments : List CommentSentiment
deriving Repr, DecidableEq

/-- The `case "positive"` test of the separator switch. -/
def isPositive (c : CommentSentiment) : Bool := c.sentiment == Sentiment.positive

/-- The `case "negative"` test of the separator switch. -/
def isNegative (c : CommentSentiment) : Bool := c.sentiment == Sentiment.negative

/-- The `case "neutral"` test of the separator switch. -/
def isNeutral (c : CommentSentiment) : Bool := c.sentiment == Sentiment.neutral

/-- `separateCommentsNode`: the for-of loop pushing each classified comment
onto the list for its sentiment, in input order. -/
def separateCommentsNode (state : AnalysisState) : SeparatedComments :=
  state.classifiedComments.foldl
    (fun acc c =>
      match c.sentiment with
      | Sentiment.positive =>
          { acc with positiveComments := acc.positiveComments ++ [c] }
      | Sentiment.negative =>
          { acc with negativeComments := acc.negativeComments ++ [c] }
      | Sentiment.neutral =>
          { acc with neutralComments := acc.neutralComments ++ [c] })
    { positiveComments := [], negativeComments := [], neutralComments := [] }

theorem separate_foldl_eq (l : List CommentSentiment) :
    ∀ acc : SeparatedComments,
      l.foldl
        (fun acc c =>
          match c.sentiment with
          | Sentiment.positive =>
              { acc with positiveComments := acc.positiveComments ++ [c] }
          | Sentiment.negative =>
              { acc with negativeComments := acc.negativeComments ++ [c] }
          | Sentiment.neutral =>
              { acc with neutralComments := acc.neutralComments ++ [c] })
        acc =
      { positiveComments := acc.positiveComments ++ l.filter isPositive,
        negativeComments := acc.negativeComments ++ l.filter isNegative,
        neutralComments := acc.neutralComments ++ l.filter isNeutral } := by
  induction l with
  | nil => intro acc; simp
  | cons c l ih =>
    intro acc
    rw [List.foldl_cons]
    cases hcs : c.sentiment with
    | positive =>
      have h1 : isPositive c = true := by unfold isPositive; rw [hcs]; rfl
      have h2 : isNegative c = false := by unfold isNegative; rw [hcs]; rfl
      have h3 : isNeutral c = false := by unfold isNeutral; rw [hcs]; rfl
      simp only [hcs]
      rw [ih, List.filter_cons_of_pos h1, List.filter_cons_of_neg (by simp [h2]),
        List.filter_cons_of_neg (by simp [h3])]
      simp
    | negative =>
      have h1 : isPositive c = false := by unfold isPositive; rw [hcs]; rfl
      have h2 : isNegative c = true := by unfold isNegative; rw [hcs]; rfl
      have h3 : isNeutral c = false := by unfold isNeutral; rw [hcs]; rfl
      simp only [hcs]
      rw [ih, List.filter_cons_of_neg (by simp [h1]), List.filter_cons_of_pos h2,
        List.filter_cons_of_neg (by simp [h3])]
      simp
    | neutral =>
      have h1 : isPositive c = false := by unfold isPositive; rw [hcs]; rfl
      have h2 : isNegative c = false := by unfold isNegative; rw [hcs]; rfl
      have h3 : isNeutral c = true := by unfold isNeutral; rw [hcs]; rfl
      simp only [hcs]
      rw [ih, List.filter_cons_of_neg (by simp [h1]),
        List.filter_cons_of_neg (by simp [h2]), List.filter_cons_of_pos h3]
      simp

theorem separateCommentsNode_eq_filters (state : AnalysisState) :
    separateCommentsNode state =
      { positiveComments := state.classifiedComments.filter isPositive,
        negativeComments := state.classifiedComments.filter isNegative,
        neutralComments := state.classifiedComments.filter isNeutral } := by
  rw [separateCommentsNode, separate_foldl_eq]
  simp

theorem filter3_multiset (l : List CommentSentiment) :
    ((l.filter isPositive : List CommentSentiment) : Multiset CommentSentiment) +
    ((l.filter isNegative : List CommentSentiment) : Multiset CommentSentiment) +
    ((l.filter isNeutral : List CommentSentiment) : Multiset CommentSentiment) =
      (l : Multiset CommentSentiment) := by
  induction l with
  | nil => rfl
  | cons c l ih =>
    cases hcs : c.sentiment with
    | positive =>
      have h1 : isPositive c = true := by unfold isPositive; rw [hcs]; rfl
      have h2 : isNegative c = false := by unfold isNegative; rw [hcs]; rfl
      have h3 : isNeutral c = false := by unfold isNeutral; rw [hcs]; rfl
      rw [List.filter_cons_of_pos h1, List.filter_cons_of_neg (by simp [h2]),
        List.filter_cons_of_neg (by simp [h3])]
      simp only [← Multiset.cons_coe, Multiset.cons_add]
      rw [ih]
    | negative =>
      have h1 : isPositive c = false := by unfold isPositive; rw [hcs]; rfl
      have h2 : isNegative c = true := by unfold isNegative; rw [hcs]; rfl
      have h3 : isNeutral c = false := by unfold isNeutral; rw [hcs]; rfl
      rw [List.filter_cons_of_neg (by simp [h1]), List.filter_cons_of_pos h2,
        List.filter_cons_of_neg (by simp [h3])]
      simp only [← Multiset.cons_coe, Multiset.add_cons, Multiset.cons_add]
      rw [ih]
    | neutral =>
      have h1 : isPositive c = false := by unfold isPositive; rw [hcs]; rfl
      have h2 : isNegative c = false := by unfold isNegative; rw [hcs]; rfl
      have h3 : isNeutral c = true := by unfold isNeutral; rw [hcs]; rfl
      rw [List.filter_cons_of_neg (by simp [h1]),
        List.filter_cons_of_neg (by simp [h2]), List.filter_cons_of_pos h3]
      simp only [← Multiset.cons_coe, Multiset.add_cons]
      rw [ih]

/-- C8: the sentiment separator returns three pairwise-disjoint
order-preserving subsequences of the input whose multiset union is the
input and whose lengths sum to the input length; it is a total function
with no failure mode. -/
theorem C8_separateCommentsNode_partition (state : AnalysisState) :
    (separateCommentsNode state).positiveComments.Sublist state.classifiedComments ∧
    (separateCommentsNode state).negativeComments.Sublist state.classifiedComments ∧
    (separateCommentsNode state).neutralComments.Sublist state.classifiedComments ∧
    (separateCommentsNode state).positiveComments.Disjoint
      (separateCommentsNode state).negativeComments ∧
    (separateCommentsNode state).positiveComments.Disjoint
      (separateCommentsNode state).neutralComments ∧
    (separateCommentsNode state).negativeComments.Disjoint
      (separateCommentsNode state).neutralComments ∧
    ((separateCommentsNode state).positiveComments : Multiset CommentSentiment) +
      ((separateCommentsNode state).negativeComments : Multiset CommentSentiment) +
      ((separateCommentsNode state).neutralComments : Multiset CommentSentiment) =
      (state.classifiedComments : Multiset CommentSentiment) ∧
    (separateCommentsNode state).positiveComments.length +
      (separateCommentsNode state).negativeComments.length +
      (separateCommentsNode state).neutralComments.length =
      state.classifiedComments.length := by
  rw [separateCommentsNode_eq_filters]
  refine ⟨List.filter_sublist _, List.filter_sublist _, List.filter_sublist _,
          ?_, ?_, ?_, filter3_multiset _, ?_⟩
  · intro a hp hn
    have h1 := (List.mem_filter.mp hp).2
    have h2 := (List.mem_filter.mp hn).2
    simp only [isPositive, beq_iff_eq] at h1
    simp only [isNegative, beq_iff_eq] at h2
    rw [h1] at h2
    exact Sentiment.noConfusion h2
  · intro a hp hn
    have h1 := (List.mem_filter.mp hp).2
    have h2 := (List.mem_filter.mp hn).2
    simp only [isPositive, beq_iff_eq] at h1
    simp only [isNeutral, beq_iff_eq] at h2
    rw [h1] at h2
    exact Sentiment.noConfusion h2
  · intro a hp hn
    have h1 := (List.mem_filter.mp hp).2
    have h2 := (List.mem_filter.mp hn).2
    simp only [isNegative, beq_iff_eq] at h1
    simp only [isNeutral, beq_iff_eq] at h2
    rw [h1] at h2
    exact Sentiment.noConfusion h2
  · show (state.classifiedComments.filter isPositive).length +
        (state.classifiedComments.filter isNegative).length +
        (state.classifiedComments.filter isNeutral).length =
        state.classifiedComments.length
    have := congrArg Multiset.card (filter3_multiset state.classifiedComments)
    simp only [Multiset.card_add, Multiset.coe_card] at this
    omega

/-! ## C7: calculateSummaryNode -/

/-- One `{count, percentage}` cell of the summary. -/
structure SentimentCount where
  count : Nat
  percentage : Nat
deriving Repr, DecidableEq

/-- The summary record of `calculateSummaryNode`. -/
structure SentimentSummary where
  positive : SentimentCount
  negative : SentimentCount
  neutral : SentimentCount
deriving Repr, DecidableEq

/-- Result fragment of `calculateSummaryNode`. -/
structure SummaryFragment where
  summary : SentimentSummary
  totalProcessed : Nat
deriving Repr, DecidableEq

/-- `Math.round((count / total) * 100)` for naturals with `total > 0`:
`⌊100·count/total + 1/2⌋ = (200·count + total) / (2·total)`. -/
def roundPct (count total : Nat) : Nat := (200 * count + total) / (2 * total)

/-- `calculateSummaryNode` from sentiment.service.ts. -/
def calculateSummaryNode (state : AnalysisState) : SummaryFragment :=
  let total := state.classifiedComments.length
  if total = 0 then
    { summary := { positive := { count := 0, percentage := 0 },
                   negative := { count := 0, percentage := 0 },
                   neutral := { count := 0, percentage := 0 } },
      totalProcessed := 0 }
  else
    { summary :=
        { positive := { count := state.positiveComments.length,
                        percentage := roundPct state.positiveComments.length total },
          negative := { count := state.negativeComments.length,
                        percentage := roundPct state.negativeComments.length total },
          neutral := { count := state.neutralComments.length,
                       percentage := roundPct state.neutralComments.length total } },
      totalProcessed := total }

/-- `roundPct` is exactly mathematical rounding of `count/total·100`. -/
theorem roundPct_eq_round (c t : Nat) (ht : 0 < t) :
    (roundPct c t : ℤ) = round ((c : ℚ) / (t : ℚ) * 100) := by
  have htq : (t : ℚ) ≠ 0 := Nat.cast_ne_zero.mpr (by omega)
  rw [round_eq]
  have hx : (c : ℚ) / (t : ℚ) * 100 + 1 / 2 =
      ((200 * c + t : ℕ) : ℚ) / ((2 * t : ℕ) : ℚ) := by
    push_cast
    field_simp
    ring
  rw [hx, ← Int.natCast_floor_eq_floor (by positivity), Nat.floor_div_eq_div]
  rfl

/-- C7: with zero classified comments the summary is all-zero with
totalProcessed = 0 and no division happens; with total > 0 each bucket
reports its subset length and round(count/total·100); and the three
percentages are not forced to sum to 100 (witnessed by a 1/1/1 split
giving 33+33+33 = 99). -/
theorem C7_calculateSummaryNode_spec (state : AnalysisState) :
    (state.classifiedComments.length = 0 →
      calculateSummaryNode state =
        { summary := { positive := { count := 0, percentage := 0 },
                       negative := { count := 0, percentage := 0 },
                       neutral := { count := 0, percentage := 0 } },
          totalProcessed := 0 }) ∧
    (0 < state.classifiedComments.length →
      (calculateSummaryNode state).summary.positive.count =
          state.positiveComments.length ∧
      (calculateSummaryNode state).summary.negative.count =
          state.negativeComments.length ∧
      (calculateSummaryNode state).summary.neutral.count =
          state.neutralComments.length ∧
      ((calculateSummaryNode state).summary.positive.percentage : ℤ) =
        round ((state.positiveComments.length : ℚ) /
          (state.classifiedComments.length : ℚ) * 100) ∧
      ((calculateSummaryNode state).summary.negative.percentage : ℤ) =
        round ((state.negativeComments.length : ℚ) /
          (state.classifiedComments.length : ℚ) * 100) ∧
      ((calculateSummaryNode state).summary.neutral.percentage : ℤ) =
        round ((state.neutralComments.length : ℚ) /
          (state.classifiedComments.length : ℚ) * 100) ∧
      (calculateSummaryNode state).totalProcessed =
          state.classifiedComments.length) ∧
    (∃ st : AnalysisState, 0 < st.classifiedComments.length ∧
      (calculateSummaryNode st).summary.positive.percentage +
        (calculateSummaryNode st).summary.negative.percentage +
        (calculateSummaryNode st).summary.neutral.percentage ≠ 100) := by
  refine ⟨fun h0 => ?_, fun hpos => ?_, ?_⟩
  · rw [calculateSummaryNode]
    simp only [h0]
    rfl
  · have hne : ¬(state.classifiedComments.length = 0) := by omega
    rw [calculateSummaryNode]
    simp only [if_neg hne]
    exact ⟨trivial, trivial, trivial,
      roundPct_eq_round _ _ hpos, roundPct_eq_round _ _ hpos,
      roundPct_eq_round _ _ hpos, trivial⟩
  · refine ⟨{ videoId := "v", comments := [], transcript := "",
              hasTranscript := false,
              classifiedComments :=
                [{ comment := "a", sentiment := Sentiment.positive },
                 { comment := "b", sentiment := Sentiment.negative },
                 { comment := "c", sentiment := Sentiment.neutral }],
              positiveComments := [{ comment := "a", sentiment := Sentiment.positive }],
              negativeComments := [{ comment := "b", sentiment := Sentiment.negative }],
              neutralComments := [{ comment := "c", sentiment := Sentiment.neutral }] },
            by decide, by decide⟩

/-- Witness for C7 at the 1/1/1 split state. -/
theorem C7_calculateSummaryNode_spec_witness :
    (calculateSummaryNode
      { videoId := "v", comments := [], transcript := "", hasTranscript := false,
        classifiedComments :=
          [{ comment := "a", sentiment := Sentiment.positive },
           { comment := "b", sentiment := Sentiment.negative },
           { comment := "c", sentiment := Sentiment.neutral }],
        positiveComments := [{ comment := "a", sentiment := Sentiment.positive }],
        negativeComments := [{ comment := "b", sentiment := Sentiment.negative }],
        neutralComments := [{ comment := "c", sentiment := Sentiment.neutral }] }).summary.positive.count = 1 :=
  ((C7_calculateSummaryNode_spec
    { videoId := "v", comments := [], transcript := "", hasTranscript := false,
      classifiedComments :=
        [{ comment := "a", sentiment := Sentiment.positive },
         { comment := "b", sentiment := Sentiment.negative },
         { comment := "c", sentiment := Sentiment.neutral }],
      positiveComments := [{ comment := "a", sentiment := Sentiment.positive }],
      negativeComments := [{ comment := "b", sentiment := Sentiment.negative }],
      neutralComments := [{ comment := "c", sentiment := Sentiment.neutral }] }).2.1
    (by decide)).1

/-! ## C6: the five insight-stage nodes never reject -/

/-- One entry of `EmotionsSchema`. -/
structure EmotionItem where
  emotion : String
  percentage : Int
  triggers : List String
deriving Repr, DecidableEq

/-- Structured output of the emotions model call. -/
structure EmotionsResult where
  emotions : List EmotionItem
deriving Repr, DecidableEq

/-- One pattern entry of `PatternsSchema`. -/
structure PatternItem where
  theme : String
  mention_count : Int
  keywords : List String
deriving Repr, DecidableEq

/-- Structured output of the patterns model call. -/
structure PatternsResult where
  positive_patterns : List PatternItem
  negative_patterns : List PatternItem
  neutral_patterns : List PatternItem
deriving Repr, DecidableEq

/-- One entry of `ThingsLovedSchema`. -/
structure LovedAspect where
  aspect : String
  reason : String
  mention_count : Int
  example_comments : List String
deriving Repr, DecidableEq

/-- Structured output of the things-loved model call. -/
structure ThingsLovedResult where
  loved_aspects : List LovedAspect
deriving Repr, DecidableEq

/-- Severity levels of `ImprovementSchema`. -/
inductive Severity where
  | minor
  | moderate
  | critical
deriving Repr, DecidableEq

/-- One entry of `ImprovementSchema`. -/
structure ImprovementItem where
  issue : String
  suggestion : String
  severity : Severity
  mention_count : Int
  example_comments : List String
deriving Repr, DecidableEq

/-- Structured output of the improvements model call. -/
structure ImprovementResult where
  improvements : List ImprovementItem
deriving Repr, DecidableEq

/-- One content request of `WantMoreSchema`. -/
structure ContentRequest where
  request_type : String
  count : Int
  examples : List String
deriving Repr, DecidableEq

/-- One expansion request of `WantMoreSchema`. -/
structure ExpansionRequest where
  timestamp_or_topic : String
  count : Int
  examples : List String
deriving Repr, DecidableEq

/-- One missing topic of `WantMoreSchema`. -/
structure MissingTopic where
  topic : String
  question_count : Int
  examples : List String
deriving Repr, DecidableEq

/-- Structured output of the want-more model call. -/
structure WantMoreResult where
  content_requests : List ContentRequest
  expansion_requests : List ExpansionRequest
  missing_topics : List MissingTopic
deriving Repr, DecidableEq

/-- The default want-more fragment used on the empty-input and error paths. -/
def emptyWantMore : WantMoreResult :=
  { content_requests := [], expansion_requests := [], missing_topics := [] }

/-- Does `needle` occur as a contiguous run of `l`? -/
def hasSubList (needle : List Char) : List Char → Bool
  | [] => needle.isEmpty
  | c :: rest => List.isPrefixOf needle (c :: rest) || hasSubList needle rest

/-- JavaScript `haystack.includes(needle)` on characters. -/
def containsSubstr (needle haystack : String) : Bool :=
  hasSubList needle.data haystack.data

/-- The neutral-comment filter of `analyzeImprovementsNode`:
`lower.includes("but") || lower.includes("however") || lower.includes("could")
|| lower.includes("should")` on the lower-cased comment. -/
def isCriticalNeutral (c : CommentSentiment) : Bool :=
  let lower := c.comment.toLower
  containsSubstr "but" lower || containsSubstr "however" lower ||
    containsSubstr "could" lower || containsSubstr "should" lower

/-- `criticalComments` of `analyzeImprovementsNode`:
negatives plus constructively-phrased neutrals. -/
def criticalComments (state : AnalysisState) : List CommentSentiment :=
  state.negativeComments ++ state.neutralComments.filter isCriticalNeutral

/-- `analyzeEmotionsNode`: empty input short-circuits; the model call result
is abstracted as `llm`; the catch block returns `{emotions: []}`. -/
def analyzeEmotionsNode (state : AnalysisState)
    (llm : Except String EmotionsResult) : Except String (List EmotionItem) :=
  if state.classifiedComments.length = 0 then Except.ok []
  else
    match llm with
    | Except.ok r => Except.ok r.emotions
    | Except.error _ => Except.ok []

/-- `analyzePatternsNode`: no empty-input check; the catch block returns
three empty pattern lists. -/
def analyzePatternsNode (_state : AnalysisState)
    (llm : Except String PatternsResult) : Except String PatternsResult :=
  match llm with
  | Except.ok r => Except.ok r
  | Except.error _ =>
      Except.ok { positive_patterns := [], negative_patterns := [],
                  neutral_patterns := [] }

/-- `analyzeThingsLovedNode`: no positive comments short-circuits; the catch
block returns `{thingsLoved: []}`. -/
def analyzeThingsLovedNode (state : AnalysisState)
    (llm : Except String ThingsLovedResult) : Except String (List LovedAspect) :=
  if state.positiveComments.length = 0 then Except.ok []
  else
    match llm with
    | Except.ok r => Except.ok r.loved_aspects
    | Except.error _ => Except.ok []

/-- `analyzeImprovementsNode`: no critical comments short-circuits; the
catch block returns `{improvements: []}`. -/
def analyzeImprovementsNode (state : AnalysisState)
    (llm : Except String ImprovementResult) :
    Except String (List ImprovementItem) :=
  if (criticalComments state).length = 0 then Except.ok []
  else
    match llm with
    | Except.ok r => Except.ok r.improvements
    | Except.error _ => Except.ok []

/-- `analyzeWantMoreNode`: no positive or neutral comments short-circuits;
the catch block returns the three empty category lists. -/
def analyzeWantMoreNode (state : AnalysisState)
    (llm : Except String WantMoreResult) : Except String WantMoreResult :=
  if (state.positiveComments ++ state.neutralComments).length = 0 then
    Except.ok emptyWantMore
  else
    match llm with
    | Except.ok r => Except.ok r
    | Except.error _ => Except.ok emptyWantMore

/-- C6: none of the five insight-stage nodes can reject — each resolves for
every input state and every model outcome — and on a failed model call each
resolves with its stage-specific empty default. -/
theorem C6_insight_nodes_never_reject (state : AnalysisState) (e : String)
    (llm1 : Except String EmotionsResult) (llm2 : Except String PatternsResult)
    (llm3 : Except String ThingsLovedResult)
    (llm4 : Except String ImprovementResult)
    (llm5 : Except String WantMoreResult) :
    (analyzeEmotionsNode state llm1).isOk = true ∧
    (analyzePatternsNode state llm2).isOk = true ∧
    (analyzeThingsLovedNode state llm3).isOk = true ∧
    (analyzeImprovementsNode state llm4).isOk = true ∧
    (analyzeWantMoreNode state llm5).isOk = true ∧
    analyzeEmotionsNode state (Except.error e) = Except.ok [] ∧
    analyzePatternsNode state (Except.error e) =
      Except.ok { positive_patterns := [], negative_patterns := [],
                  neutral_patterns := [] } ∧
    analyzeThingsLovedNode state (Except.error e) = Except.ok [] ∧
    analyzeImprovementsNode state (Except.error e) = Except.ok [] ∧
    analyzeWantMoreNode state (Except.error e) = Except.ok emptyWantMore := by
  refine ⟨?_, ?_, ?_, ?_, ?_, ?_, ?_, ?_, ?_, ?_⟩
  · unfold analyzeEmotionsNode
    split
    · rfl
    · cases llm1 <;> rfl
  · unfold analyzePatternsNode
    cases llm2 <;> rfl
  · unfold analyzeThingsLovedNode
    split
    · rfl
    · cases llm3 <;> rfl
  · unfold analyzeImprovementsNode
    split
    · rfl
    · cases llm4 <;> rfl
  · unfold analyzeWantMoreNode
    split
    · rfl
    · cases llm5 <;> rfl
  · unfold analyzeEmotionsNode
    split <;> rfl
  · rfl
  · unfold analyzeThingsLovedNode
    split <;> rfl
  · unfold analyzeImprovementsNode
    split <;> rfl
  · unfold analyzeWantMoreNode
    split <;> rfl

/-! ## C5: the barrier node of the multi-agent graph -/

/-- `AgentState` as seen by the barrier: the completed-agent set and the
four analysis output slots (their payload types are irrelevant here). -/
structure AgentState (α β γ δ : Type) where
  agentsCompleted : List String
  competitionAnalysis : Option α
  audienceAnalysis : Option β
  trendAnalysis : Option γ
  strategyAnalysis : Option δ
deriving DecidableEq

/-- A `Partial<AgentState>` return value: present fields overwrite. -/
structure AgentUpdate (α β γ δ : Type) where
  agentsCompleted : Option (List String)
  competitionAnalysis : Option (Option α)
  audienceAnalysis : Option (Option β)
  trendAnalysis : Option (Option γ)
  strategyAnalysis : Option (Option δ)
deriving DecidableEq

/-- The empty update `{}` returned by a node that changes nothing. -/
def emptyAgentUpdate : AgentUpdate α β γ δ :=
  { agentsCompleted := none, competitionAnalysis := none,
    audienceAnalysis := none, trendAnalysis := none, strategyAnalysis := none }

/-- Merging a partial update into the state. -/
def applyAgentUpdate (u : AgentUpdate α β γ δ) (s : AgentState α β γ δ) :
    AgentState α β γ δ :=
  { agentsCompleted := u.agentsCompleted.getD s.agentsCompleted,
    competitionAnalysis := u.competitionAnalysis.getD s.competitionAnalysis,
    audienceAnalysis := u.audienceAnalysis.getD s.audienceAnalysis,
    trendAnalysis := u.trendAnalysis.getD s.trendAnalysis,
    strategyAnalysis := u.strategyAnalysis.getD s.strategyAnalysis }

/-- The `requiredAgents` set of the barrier, in insertion order. -/
def requiredAgents : List String := ["competition", "audience", "trend", "strategy"]

/-- The `missing` list computed inside the barrier failure branch. -/
def missingAgents (completed : List String) : List String :=
  requiredAgents.filter (fun a => !(completed.contains a))

/-- The error message of the barrier failure branch. -/
def barrierMissingMsg (missing : List String) : String :=
  "Not all agents completed. Missing: " ++ String.intercalate ", " missing

/-- `barrierNode`: throws when some required agent is not in
`agentsCompleted`, then when some analysis slot is null, otherwise returns
the empty partial update. -/
def barrierNode (s : AgentState α β γ δ) : Except String (AgentUpdate α β γ δ) :=
  let allComplete := requiredAgents.all (fun a => s.agentsCompleted.contains a)
  if !allComplete then
    Except.error (barrierMissingMsg (missingAgents s.agentsCompleted))
  else if !(s.competitionAnalysis.isSome && s.audienceAnalysis.isSome &&
      s.trendAnalysis.isSome && s.strategyAnalysis.isSome) then
    Except.error "Some agent data is missing"
  else
    Except.ok emptyAgentUpdate

theorem intercalate_go_data (sep : String) :
    ∀ (l : List String) (acc : String),
      (String.intercalate.go acc sep l).data =
        acc.data ++ (l.map (fun b => sep.data ++ b.data)).flatten := by
  intro l
  induction l with
  | nil => intro acc; simp [String.intercalate.go]
  | cons b bs ih =>
    intro acc
    rw [String.intercalate.go, ih]
    simp

theorem flatten_sep_extract (sep : String) (a : String) :
    ∀ bs : List String, a ∈ bs →
      ∃ s t, ((bs.map (fun b => sep.data ++ b.data)).flatten : List Char) =
        s ++ a.data ++ t := by
  intro bs
  induction bs with
  | nil => intro ha; exact absurd ha (List.not_mem_nil a)
  | cons b bs ih =>
    intro ha
    rcases List.mem_cons.mp ha with h | h
    · refine ⟨sep.data, ((bs.map (fun b => sep.data ++ b.data)).flatten), ?_⟩
      rw [← h]
      simp
    · obtain ⟨s, t, hst⟩ := ih h
      refine ⟨sep.data ++ b.data ++ s, t, ?_⟩
      simp only [List.map_cons, List.flatten_cons, hst]
      simp

/-- Every member of the missing list occurs verbatim inside the barrier
error message. -/
theorem mem_substr_barrierMissingMsg (missing : List String) (a : String)
    (ha : a ∈ missing) :
    ∃ s t, (barrierMissingMsg missing).data = s ++ a.data ++ t := by
  rw [barrierMissingMsg]
  match missing, ha with
  | b :: bs, ha =>
    rw [String.intercalate, String.data_append, intercalate_go_data]
    rcases List.mem_cons.mp ha with h | h
    · refine ⟨"Not all agents completed. Missing: ".data,
        ((bs.map (fun x => (", " : String).data ++ x.data)).flatten), ?_⟩
      rw [← h]
      simp
    · obtain ⟨s, t, hst⟩ := flatten_sep_extract ", " a bs h
      refine ⟨"Not all agents completed. Missing: ".data ++ b.data ++ s, t, ?_⟩
      rw [hst]
      simp

/-- C5: the barrier throws a message naming exactly the missing agents when
`agentsCompleted` lacks any of the four names; with all names present it
throws "Some agent data is missing" when any analysis slot is null; and
when all names are present and all slots non-null it succeeds with the
empty update, leaving every state field unchanged. -/
theorem C5_barrierNode_spec {α β γ δ : Type} (s : AgentState α β γ δ) :
    ((∃ a ∈ requiredAgents, ¬(s.agentsCompleted.contains a = true)) →
      barrierNode s =
        Except.error (barrierMissingMsg (missingAgents s.agentsCompleted)) ∧
      (∀ a ∈ requiredAgents,
        (¬(s.agentsCompleted.contains a = true) ↔
          a ∈ missingAgents s.agentsCompleted)) ∧
      (∀ a ∈ missingAgents s.agentsCompleted,
        ∃ pre suf,
          (barrierMissingMsg (missingAgents s.agentsCompleted)).data =
            pre ++ a.data ++ suf)) ∧
    ((∀ a ∈ requiredAgents, s.agentsCompleted.contains a = true) →
      ¬(s.competitionAnalysis.isSome ∧ s.audienceAnalysis.isSome ∧
          s.trendAnalysis.isSome ∧ s.strategyAnalysis.isSome) →
      barrierNode s = Except.error "Some agent data is missing") ∧
    ((∀ a ∈ requiredAgents, s.agentsCompleted.contains a = true) →
      s.competitionAnalysis.isSome → s.audienceAnalysis.isSome →
      s.trendAnalysis.isSome → s.strategyAnalysis.isSome →
      barrierNode s = Except.ok emptyAgentUpdate ∧
        applyAgentUpdate emptyAgentUpdate s = s) := by
  refine ⟨fun hmiss => ?_, fun hall hslot => ?_, fun hall h1 h2 h3 h4 => ?_⟩
  · have hnall : requiredAgents.all
        (fun a => s.agentsCompleted.contains a) = false := by
      obtain ⟨a, hmem, hnc⟩ := hmiss
      rw [List.all_eq_false]
      exact ⟨a, hmem, by simpa using hnc⟩
    refine ⟨?_, fun a hmem => ?_, fun a hmem =>
      mem_substr_barrierMissingMsg _ a hmem⟩
    · rw [barrierNode]
      simp only [hnall]
      rfl
    · rw [missingAgents, List.mem_filter]
      constructor
      · intro hnc
        exact ⟨hmem, by simpa using hnc⟩
      · intro h
        have := h.2
        simp at this
        simp [this]
  · have hallb : requiredAgents.all
        (fun a => s.agentsCompleted.contains a) = true := by
      rw [List.all_eq_true]
      exact hall
    rw [barrierNode]
    simp only [hallb, Bool.not_true, Bool.false_eq_true, if_false]
    have hb : (s.competitionAnalysis.isSome && s.audienceAnalysis.isSome &&
        s.trendAnalysis.isSome && s.strategyAnalysis.isSome) = false := by
      by_contra hcon
      rw [Bool.not_eq_false] at hcon
      simp only [Bool.and_eq_true] at hcon
      exact hslot ⟨hcon.1.1.1, hcon.1.1.2, hcon.1.2, hcon.2⟩
    rw [hb]
    rfl
  · have hallb : requiredAgents.all
        (fun a => s.agentsCompleted.contains a) = true := by
      rw [List.all_eq_true]
      exact hall
    have hb : (s.competitionAnalysis.isSome && s.audienceAnalysis.isSome &&
        s.trendAnalysis.isSome && s.strategyAnalysis.isSome) = true := by
      simp [h1, h2, h3, h4]
    refine ⟨?_, ?_⟩
    · rw [barrierNode]
      simp only [hallb, Bool.not_true, Bool.false_eq_true, if_false, hb]
    · rw [applyAgentUpdate, emptyAgentUpdate]
      rfl

/-- Witness for C5: only "competition" completed, all slots null. -/
theorem C5_barrierNode_spec_witness :
    barrierNode
      { agentsCompleted := ["competition"],
        competitionAnalysis := (none : Option Unit),
        audienceAnalysis := (none : Option Unit),
        trendAnalysis := (none : Option Unit),
        strategyAnalysis := (none : Option Unit) } =
      Except.error (barrierMissingMsg (missingAgents ["competition"])) :=
  ((C5_barrierNode_spec
    { agentsCompleted := ["competition"],
      competitionAnalysis := (none : Option Unit),
      audienceAnalysis := (none : Option Unit),
      trendAnalysis := (none : Option Unit),
      strategyAnalysis := (none : Option Unit) }).1
    ⟨"audience", by decide, by decide⟩).1

/-! ## C9: APIKeyRotator -/

/-- The mutable state of `APIKeyRotator` (`currentIndex`). -/
structure APIKeyRotator where
  currentIndex : Nat
deriving Repr, DecidableEq

/-- `getNextKey`: returns `API_KEYS[currentIndex]` and advances the index
modulo the pool size. -/
def getNextKey (keys : List String) (r : APIKeyRotator) : String × APIKeyRotator :=
  (keys.getD r.currentIndex "",
   { currentIndex := (r.currentIndex + 1) % keys.length })

/-- `getKeyForWorker`: reads only the fixed pool and the worker index, not
the rotator state. -/
def getKeyForWorker (keys : List String) (_r : APIKeyRotator)
    (workerIndex : Nat) : String :=
  keys.getD (workerIndex % keys.length) ""

/-- The keys produced by `n` consecutive `getNextKey` calls. -/
def nextKeys (keys : List String) : Nat → APIKeyRotator → List String
  | 0, _ => []
  | n + 1, r =>
    (getNextKey keys r).1 :: nextKeys keys n (getNextKey keys r).2

theorem nextKeys_formula (keys : List String) (hm : 0 < keys.length) :
    ∀ (n s : Nat), s < keys.length →
      nextKeys keys n { currentIndex := s } =
        (List.range n).map (fun j => keys.getD ((s + j) % keys.length) "") := by
  intro n
  induction n with
  | zero => intro s hs; rfl
  | succ n ih =>
    intro s hs
    rw [nextKeys, List.range_succ_eq_map, List.map_cons, List.map_map]
    have hhead : (getNextKey keys { currentIndex := s }).1 =
        keys.getD ((s + 0) % keys.length) "" := by
      show keys.getD s "" = keys.getD ((s + 0) % keys.length) ""
      rw [Nat.add_zero, Nat.mod_eq_of_lt hs]
    rw [hhead]
    have htail : nextKeys keys n (getNextKey keys { currentIndex := s }).2 =
        (List.range n).map
          (fun j => keys.getD (((s + 1) % keys.length + j) % keys.length) "") := by
      exact ih ((s + 1) % keys.length) (Nat.mod_lt _ hm)
    rw [htail]
    congr 1
    apply List.map_congr_left
    intro j hj
    show keys.getD (((s + 1) % keys.length + j) % keys.length) "" =
      keys.getD ((s + (j + 1)) % keys.length) ""
    rw [Nat.mod_add_mod]
    congr 2
    omega

theorem nextKeys_eq_rotate (keys : List String) (hm : 0 < keys.length)
    (s : Nat) (hs : s < keys.length) :
    nextKeys keys keys.length { currentIndex := s } = keys.rotate s := by
  rw [nextKeys_formula keys hm keys.length s hs]
  apply List.ext_getElem
  · rw [List.length_map, List.length_range, List.length_rotate]
  · intro i h1 h2
    rw [List.getElem_map, List.getElem_range, List.getElem_rotate]
    have hidx2 : (i + s) % keys.length < keys.length := Nat.mod_lt _ hm
    have hswap : (s + i) % keys.length = (i + s) % keys.length := by
      rw [Nat.add_comm]
    rw [List.getD_eq_getElem?_getD, hswap, List.getElem?_eq_getElem hidx2]
    rfl

/-- C9: `keyForWorker(i)` is `pool[i mod m]`, independent of the rotator
state (hence stable across repeated calls); and from any reachable rotator
state, `m` consecutive `nextKey()` calls return the pool as a rotation —
the entire pool, pairwise distinct when the pool keys are distinct. -/
theorem C9_keyRotator_spec (keys : List String) (hm : 1 ≤ keys.length)
    (i : Nat) (r1 r2 : APIKeyRotator) (s : Nat) (hs : s < keys.length) :
    (getKeyForWorker keys r1 i = keys.getD (i % keys.length) "" ∧
     getKeyForWorker keys r1 i = getKeyForWorker keys r2 i ∧
     ∃ h : i % keys.length < keys.length,
       getKeyForWorker keys r1 i = keys.get ⟨i % keys.length, h⟩) ∧
    nextKeys keys keys.length { currentIndex := s } = keys.rotate s ∧
    (nextKeys keys keys.length { currentIndex := s }).Perm keys ∧
    (keys.Nodup → (nextKeys keys keys.length { currentIndex := s }).Nodup) := by
  have hrot := nextKeys_eq_rotate keys (by omega) s hs
  have hperm : (nextKeys keys keys.length { currentIndex := s }).Perm keys := by
    rw [hrot]; exact List.rotate_perm keys s
  refine ⟨⟨rfl, rfl, ?_⟩, hrot, hperm, fun hnd => hperm.nodup_iff.mpr hnd⟩
  have hidx : i % keys.length < keys.length := Nat.mod_lt _ (by omega)
  refine ⟨hidx, ?_⟩
  show keys.getD (i % keys.length) "" = _
  rw [List.getD_eq_getElem?_getD, List.getElem?_eq_getElem hidx]
  rfl

/-- Witness for C9: pool of three distinct keys, starting index 1. -/
theorem C9_keyRotator_spec_witness :
    nextKeys ["k1", "k2", "k3"] 3 { currentIndex := 1 } =
      ["k1", "k2", "k3"].rotate 1 :=
  (C9_keyRotator_spec ["k1", "k2", "k3"] (by decide) 5
    { currentIndex := 0 } { currentIndex := 2 } 1 (by decide)).2.1

/-! ## C4: processVideoAnalysis on zero comments -/

/-- `VideoTranscript` from the YouTube service interface. -/
structure VideoTranscript where
  text : String
  available : Bool
deriving Repr, DecidableEq

/-- Socket emissions of the job handler, reduced to the fields the claim
is about. -/
inductive WorkerEvent where
  | progress (stage : String) (percentage : Nat)
  | errorEvent (message : String)
  | completion
deriving Repr, DecidableEq

/-- `processVideoAnalysis` from video.worker.ts: the fetch results of the
`Promise.allSettled` pair and the analysis workflow are parameters; the
function returns the emitted events and the settled outcome (`Except.error`
models a thrown error, re-thrown by the catch block after emitting an error
event). -/
def processVideoAnalysis {ρ : Type}
    (commentsResult : Except String (List YouTubeComment))
    (transcriptResult : Except String VideoTranscript)
    (workflow : List YouTubeComment → String → Bool → Except String ρ) :
    List WorkerEvent × Except String ρ :=
  let baseEvents := [WorkerEvent.progress "queued" 0,
                     WorkerEvent.progress "fetching_comments" 10]
  match commentsResult with
  | Except.error msg =>
      let m := "Failed to fetch comments: " ++ msg
      (baseEvents ++ [WorkerEvent.errorEvent m, WorkerEvent.errorEvent m],
       Except.error m)
  | Except.ok allComments =>
    let transcriptData :=
      match transcriptResult with
      | Except.ok td => td
      | Except.error _ => { text := "", available := false }
    let e3 := baseEvents ++
      [WorkerEvent.progress "fetching_comments" 20,
       WorkerEvent.progress "fetching_transcript" 25,
       WorkerEvent.progress "fetching_transcript" 30]
    if allComments.length = 0 then
      (e3 ++ [WorkerEvent.errorEvent "No comments found for this video",
              WorkerEvent.errorEvent "No comments found for this video"],
       Except.error "No comments found for this video")
    else
      let e4 := e3 ++ [WorkerEvent.progress "classifying_comments" 40]
      match workflow allComments transcriptData.text transcriptData.available with
      | Except.ok r =>
          (e4 ++ [WorkerEvent.progress "completed" 100, WorkerEvent.completion],
           Except.ok r)
      | Except.error msg =>
          (e4 ++ [WorkerEvent.errorEvent msg], Except.error msg)

/-- Modelled from the spec: the BullMQ job queue is outside src/; per the
spec a handler that throws is recorded as job status `failed` with the
thrown message as `failedReason`, and a handler that returns is recorded
`completed`. -/
inductive JobRecord where
  | completed
  | failed (failedReason : String)
deriving Repr, DecidableEq

/-- Modelled from the spec: how the external queue records the settled
handler outcome. -/
def recordJobOutcome {ρ : Type} (outcome : Except String ρ) : JobRecord :=
  match outcome with
  | Except.ok _ => JobRecord.completed
  | Except.error msg => JobRecord.failed msg

/-- C4: with a successful fetch of zero comments the handler throws
"No comments found for this video" after emitting an error event, never
consults the classification workflow, is recorded failed by the queue, and
returns no analysis result. -/
theorem C4_zero_comments_job_fails {ρ : Type}
    (transcriptResult : Except String VideoTranscript)
    (wf1 wf2 : List YouTubeComment → String → Bool → Except String ρ) :
    (processVideoAnalysis (Except.ok []) transcriptResult wf1).2 =
      Except.error "No comments found for this video" ∧
    WorkerEvent.errorEvent "No comments found for this video" ∈
      (processVideoAnalysis (Except.ok []) transcriptResult wf1).1 ∧
    processVideoAnalysis (Except.ok []) transcriptResult wf1 =
      processVideoAnalysis (Except.ok []) transcriptResult wf2 ∧
    recordJobOutcome
        (processVideoAnalysis (Except.ok []) transcriptResult wf1).2 =
      JobRecord.failed "No comments found for this video" ∧
    ∀ r : ρ, (processVideoAnalysis (Except.ok []) transcriptResult wf1).2 ≠
      Except.ok r := by
  refine ⟨rfl, ?_, rfl, rfl, fun r h => ?_⟩
  · show WorkerEvent.errorEvent "No comments found for this video" ∈
      ([WorkerEvent.progress "queued" 0,
        WorkerEvent.progress "fetching_comments" 10] ++
       [WorkerEvent.progress "fetching_comments" 20,
        WorkerEvent.progress "fetching_transcript" 25,
        WorkerEvent.progress "fetching_transcript" 30] ++
       [WorkerEvent.errorEvent "No comments found for this video",
        WorkerEvent.errorEvent "No comments found for this video"])
    simp
  · exact Except.noConfusion h

/-- Witness for C4 at a failed transcript fetch and a trivial workflow. -/
theorem C4_zero_comments_job_fails_witness :
    (processVideoAnalysis (Except.ok []) (Except.error "no transcript")
        (fun _ _ _ => Except.ok (0 : Nat))).2 =
      Except.error "No comments found for this video" :=
  (C4_zero_comments_job_fails (Except.error "no transcript")
    (fun _ _ _ => Except.ok (0 : Nat)) (fun _ _ _ => Except.error "boom")).1

/-- A concrete analysis state for witnesses: one comment per sentiment. -/
def sampleState : AnalysisState :=
  { videoId := "v", comments := [], transcript := "", hasTranscript := false,
    classifiedComments :=
      [{ comment := "a", sentiment := Sentiment.positive },
       { comment := "b", sentiment := Sentiment.negative },
       { comment := "c", sentiment := Sentiment.neutral }],
    positiveComments := [{ comment := "a", sentiment := Sentiment.positive }],
    negativeComments := [{ comment := "b", sentiment := Sentiment.negative }],
    neutralComments := [{ comment := "c", sentiment := Sentiment.neutral }] }

/-- Witness for C6 at a concrete state and failed model calls. -/
theorem C6_insight_nodes_never_reject_witness :
    analyzeEmotionsNode sampleState (Except.error "rate limited") =
      Except.ok [] :=
  (C6_insight_nodes_never_reject sampleState "rate limited"
    (Except.error "rate limited") (Except.error "rate limited")
    (Except.error "rate limited") (Except.error "rate limited")
    (Except.error "rate limited")).2.2.2.2.2.1

/-- Witness for C8 at a concrete state: bucket lengths sum to the input
length. -/
theorem C8_separateCommentsNode_partition_witness :
    (separateCommentsNode sampleState).positiveComments.length +
      (separateCommentsNode sampleState).negativeComments.length +
      (separateCommentsNode sampleState).neutralComments.length =
      sampleState.classifiedComments.length :=
  (C8_separateCommentsNode_partition sampleState).2.2.2.2.2.2.2

/-- Witness for C10: comment conservation after 3 steps of an always-failing
run on one 12-comment batch. -/
theorem C10_split_preserves_comments_witness :
    stateComments (poolIter (fun _ => false) none none 1 3
        (initialPool [sampleComments 12] "" false)) =
      (([sampleComments 12] : List (List YouTubeComment)).flatten :
        Multiset YouTubeComment) :=
  (C10_split_preserves_comments (fun _ => false) none none 1
    [sampleComments 12] "" false).2 3

end Vidly
